import Mathlib

/-!
Verification of the label/state-reconciliation layer of the `copilot`
GitHub-automation bot, shallowly embedded in Lean 4.

Pure data (Result, ProjectDetail, label configuration) is translated to
Lean structures.  Stateful use cases (`CheckPriority…SizeUseCase.invoke`,
`MoveIssueToInProgressUseCase.invoke`, `InitialSetupUseCase.invoke`) are
translated to functions over explicit environment records that fix the
outcome of each remote call; the functions additionally return a trace of
which calls / stages were actually invoked, so that "never calls the
endpoint" statements can be settled.  Remote calls that may throw are
modelled with an explicit ok-or-thrown sum type.
-/

namespace Copilot

/-- Character-list test that the first list leads the second, used to embed the
JavaScript startsWith check. -/
def leadingChars : List Char → List Char → Bool
  | [], _ => true
  | _ :: _, [] => false
  | c :: cs, d :: ds => c == d && leadingChars cs ds

/-- Embedding of the JavaScript call s.startsWith(pre). -/
def strStarts (s pre : String) : Bool := leadingChars pre.data s.data

/-- Lower-case a string character by character (JS `toLowerCase` on ASCII names). -/
def lowerStr (s : String) : String := ⟨s.data.map Char.toLower⟩

/-- Outcome of one remote API call that returns a boolean or throws. -/
inductive CallOutcome where
  | ok (success : Bool)
  | err (msg : String)
deriving DecidableEq, Repr

/-- The `Result` model: outcome of one use case attempt against one target.
`errors = none` embeds an omitted `errors` field in the constructor call. -/
structure Result where
  id : String
  success : Bool
  executed : Bool
  steps : List String
  errors : Option (List String)
deriving DecidableEq, Repr

/-- Model of ProjectDetail from src/data/model/project_detail.ts: one project
board.  Field number defaults to -1 in the constructor, hence Int. -/
structure ProjectDetail where
  id : String
  title : String
  type : String
  owner : String
  url : String
  number : Int
deriving DecidableEq, Repr

/-- Derived getter publicUrl: the stored url when truthy and starting with
https://, otherwise synthesized from type, owner and number. -/
def ProjectDetail.publicUrl (p : ProjectDetail) : String :=
  if p.url ≠ "" && strStarts p.url "https://" then p.url
  else
    (if p.type = "organization" then "https://github.com/orgs/" else "https://github.com/users/")
      ++ p.owner ++ "/projects/" ++ toString p.number

/-- Label configuration slice consumed by the priority/size use cases. -/
structure Labels where
  priorityLabelOnIssue : String
  priorityLabelOnIssueProcessable : Bool
  priorityHigh : String
  priorityMedium : String
  priorityLow : String
deriving DecidableEq, Repr

/-- Slice of the Execution aggregate consumed by the priority/size use cases:
repo coordinates, the issue/PR number, label configuration and the linked
project boards. -/
structure PriorityExecution where
  owner : String
  repo : String
  number : Int
  labels : Labels
  projects : List ProjectDetail
deriving DecidableEq, Repr

/-- The priority-tier ladder of `invoke`: the current label is compared to
the configured high, medium and low names in that order with `===`. -/
def priorityTier (l : Labels) : Option String :=
  if l.priorityLabelOnIssue = l.priorityHigh then some "P0"
  else if l.priorityLabelOnIssue = l.priorityMedium then some "P1"
  else if l.priorityLabelOnIssue = l.priorityLow then some "P2"
  else none

/-- The short-circuit no-op `Result` pushed by the priority/size use cases. -/
def noopResult (taskId : String) : Result :=
  { id := taskId, success := true, executed := false, steps := [], errors := none }

/-- The success `Result` pushed when `setTaskPriority` returns true for one project. -/
def prioritySuccessResult (taskId priorityLabel : String) (p : ProjectDetail) : Result :=
  { id := taskId, success := true, executed := true,
    steps := ["Priority set to `" ++ priorityLabel ++ "` in [" ++ p.title ++ "]("
      ++ p.publicUrl ++ ")."],
    errors := none }

/-- The failure `Result` pushed by the catch block of the priority/size use cases. -/
def priorityFailResult (taskId e : String) : Result :=
  { id := taskId, success := false, executed := true,
    steps := ["Tried to check the priority of the issue, but there was a problem."],
    errors := some [e] }

/-- The per-project loop of `invoke`: pushes a success `Result` when the call
returns true, nothing when it returns false; a throw stops the loop and
appends the single failure `Result` after the entries already accumulated.
Also returns the list of projects for which `setTaskPriority` was called. -/
def prioritySizeLoop (taskId priorityLabel : String)
    (setPriority : ProjectDetail → CallOutcome) :
    List ProjectDetail → List Result × List ProjectDetail
  | [] => ([], [])
  | p :: ps =>
    match setPriority p with
    | .err e => ([priorityFailResult taskId e], [p])
    | .ok b =>
      let rest := prioritySizeLoop taskId priorityLabel setPriority ps
      ((if b then [prioritySuccessResult taskId priorityLabel p] else []) ++ rest.1,
        p :: rest.2)

/-- Embedding of CheckPriorityPullRequestSizeUseCase.invoke (and the issue
variant, which differs only in the number passed down and the task id, per its
unit tests): short-circuits to a
no-op `Result` when priority labeling is off, no projects are linked, or the
label matches no configured tier; otherwise runs the per-project loop.
The second component is the trace of `setTaskPriority` calls. -/
def checkPrioritySizeInvoke (taskId : String) (param : PriorityExecution)
    (setPriority : ProjectDetail → CallOutcome) : List Result × List ProjectDetail :=
  if param.labels.priorityLabelOnIssueProcessable = false ∨ param.projects = [] then
    ([noopResult taskId], [])
  else
    match priorityTier param.labels with
    | none => ([noopResult taskId], [])
    | some priorityLabel => prioritySizeLoop taskId priorityLabel setPriority param.projects

/-- Concrete board used in priority/size counterexamples and witnesses. -/
def boardA : ProjectDetail := ⟨"p1", "Board A", "organization", "acme", "", 1⟩

/-- Second concrete board (the one whose priority-set call throws). -/
def boardB : ProjectDetail := ⟨"p2", "Board B", "organization", "acme", "", 2⟩

/-- Execution with two linked boards and the current label on the configured
high tier. -/
def twoBoardParam : PriorityExecution :=
  ⟨"o", "r", 2, ⟨"P0", true, "P0", "P1", "P2"⟩, [boardA, boardB]⟩

/-- Oracle where the priority-set call succeeds on `boardA` and throws on
every other board. -/
def throwOnB (p : ProjectDetail) : CallOutcome :=
  if p.id = "p1" then .ok true else .err "Error: API error"

/-- Slice of the Execution aggregate consumed by MoveIssueToInProgressUseCase:
field columnName holds getProjectColumnIssueInProgress(). -/
structure MoveExecution where
  owner : String
  repo : String
  issueNumber : Int
  columnName : String
  projects : List ProjectDetail
deriving DecidableEq, Repr

/-- The task id of `MoveIssueToInProgressUseCase`. -/
def moveTaskId : String := "MoveIssueToInProgressUseCase"

/-- The success `Result` pushed when `moveIssueToColumn` returns true for one board. -/
def moveSuccessResult (columnName : String) (p : ProjectDetail) : Result :=
  { id := moveTaskId, success := true, executed := true,
    steps := ["Moved issue to `" ++ columnName ++ "` in [" ++ p.title ++ "]("
      ++ p.publicUrl ++ ")."],
    errors := none }

/-- The failure `Result` pushed by the catch block of `MoveIssueToInProgressUseCase`. -/
def moveFailResult (columnName e : String) : Result :=
  { id := moveTaskId, success := false, executed := true,
    steps := ["Tried to move the issue to `" ++ columnName ++ "`, but there was a problem."],
    errors := some [e] }

/-- Per-board loop of `MoveIssueToInProgressUseCase.invoke`: a success `Result`
per true return, nothing on false, and a throw stops the loop and appends the
failure `Result`.  Second component: boards for which the move was called. -/
def moveIssueLoop (columnName : String) (move : ProjectDetail → CallOutcome) :
    List ProjectDetail → List Result × List ProjectDetail
  | [] => ([], [])
  | p :: ps =>
    match move p with
    | .err e => ([moveFailResult columnName e], [p])
    | .ok b =>
      let rest := moveIssueLoop columnName move ps
      ((if b then [moveSuccessResult columnName p] else []) ++ rest.1, p :: rest.2)

/-- Embedding of MoveIssueToInProgressUseCase.invoke: iterates over all linked
boards (no short-circuit guard). -/
def moveIssueInvoke (param : MoveExecution) (move : ProjectDetail → CallOutcome) :
    List Result × List ProjectDetail :=
  moveIssueLoop param.columnName move param.projects

/-- Oracle where the move call returns true on `boardA` and false elsewhere. -/
def moveTrueOnA (p : ProjectDetail) : CallOutcome :=
  if p.id = "p1" then .ok true else .ok false

/-- Return value of `copySetupFiles`. -/
structure CopyFilesResult where
  copied : Nat
  skipped : Nat
deriving DecidableEq, Repr

/-- Outcome of a remote/filesystem call that either returns a value or throws. -/
inductive Call (α : Type) where
  | ok (value : α)
  | thrown (e : String)
deriving DecidableEq, Repr

/-- Counts/errors returned by `IssueRepository.ensureLabels`,
`ensureProgressLabels` and `ensureIssueTypes`. -/
structure BatchOutcome where
  created : Nat
  existing : Nat
  errors : List String
deriving DecidableEq, Repr

/-- Return value of the private `ensureLabels`/`ensureIssueTypes` wrappers of
`InitialSetupUseCase`, which add a `success` flag derived from `errors`. -/
structure WrappedBatch where
  success : Bool
  created : Nat
  existing : Nat
  errors : List String
deriving DecidableEq, Repr

/-- Environment for `InitialSetupUseCase.invoke`: the outcome of each
collaborator call, fixed up front. -/
structure SetupEnv where
  dirsAndCopy : Call CopyFilesResult
  hasValidToken : Bool
  githubAccess : Call String
  labelsBatch : Call BatchOutcome
  progressBatch : Call BatchOutcome
  issueTypesBatch : Call BatchOutcome
deriving DecidableEq, Repr

/-- Private `InitialSetupUseCase.ensureLabels`: catches a throw and converts it
to a single error message; `success` is `errors.length === 0`. -/
def ensureLabelsWrapper : Call BatchOutcome → WrappedBatch
  | .ok b => ⟨b.errors.isEmpty, b.created, b.existing, b.errors⟩
  | .thrown e => ⟨false, 0, 0, ["Error asegurando labels: " ++ e]⟩

/-- Private `InitialSetupUseCase.ensureProgressLabels`: catches a throw and
converts it to a single error message. -/
def ensureProgressWrapper : Call BatchOutcome → BatchOutcome
  | .ok b => b
  | .thrown e => ⟨0, 0, ["Error asegurando progress labels: " ++ e]⟩

/-- Private `InitialSetupUseCase.ensureIssueTypes`: catches a throw and
converts it to a single error message; `success` is `errors.length === 0`. -/
def ensureIssueTypesWrapper : Call BatchOutcome → WrappedBatch
  | .ok b => ⟨b.errors.isEmpty, b.created, b.existing, b.errors⟩
  | .thrown e => ⟨false, 0, 0, ["Error asegurando tipos de Issue: " ++ e]⟩

/-- The task id of `InitialSetupUseCase`. -/
def setupTaskId : String := "InitialSetupUseCase"

/-- Step pushed after copying setup files. -/
def setupFilesStep (f : CopyFilesResult) : String :=
  "✅ Setup files: " ++ toString f.copied ++ " copied, " ++ toString f.skipped
    ++ " already existed"

/-- Error recorded when the token gate fails. -/
def tokenErrorMsg : String :=
  "PERSONAL_ACCESS_TOKEN must be set (environment or .env) with a valid token to run setup."

/-- Step pushed after GitHub access is verified. -/
def accessStep (user : String) : String := "✅ GitHub access verified: " ++ user

/-- Error recorded by `verifyGitHubAccess` on a throw. -/
def accessErrorMsg (e : String) : String := "No se pudo verificar el acceso a GitHub: " ++ e

/-- Step pushed when the labels stage succeeds. -/
def labelsStep (w : WrappedBatch) : String :=
  "✅ Labels checked: " ++ toString w.created ++ " created, " ++ toString w.existing
    ++ " already existed"

/-- Step pushed when the progress-labels stage succeeds. -/
def progressStep (b : BatchOutcome) : String :=
  "✅ Progress labels checked: " ++ toString b.created ++ " created, " ++ toString b.existing
    ++ " already existed"

/-- Step pushed when the issue-types stage succeeds. -/
def issueTypesStep (w : WrappedBatch) : String :=
  "✅ Issue types checked: " ++ toString w.created ++ " created, " ++ toString w.existing
    ++ " already existed"

/-- Error recorded by the top-level catch of `InitialSetupUseCase.invoke`. -/
def setupCatchMsg (e : String) : String := "Error ejecutando setup inicial: " ++ e

/-- The error list accumulated across the three ensure stages of
`InitialSetupUseCase.invoke` (labels, then progress labels, then issue types):
a failed stage appends its errors, a successful one appends nothing. -/
def setupStageErrors (env : SetupEnv) : List String :=
  let labelsR := ensureLabelsWrapper env.labelsBatch
  let errs2 := if labelsR.success then [] else labelsR.errors
  let progressR := ensureProgressWrapper env.progressBatch
  let errs3 := if progressR.errors.isEmpty then errs2 else errs2 ++ progressR.errors
  let typesR := ensureIssueTypesWrapper env.issueTypesBatch
  if typesR.success then errs3 else errs3 ++ typesR.errors

/-- The step list accumulated by `InitialSetupUseCase.invoke` when the gates
pass: one step per successful stage, nothing for failed ensure stages. -/
def setupStageSteps (env : SetupEnv) (files : CopyFilesResult) (user : String) : List String :=
  let labelsR := ensureLabelsWrapper env.labelsBatch
  let steps2 := if labelsR.success then [setupFilesStep files, accessStep user]
    ++ [labelsStep labelsR] else [setupFilesStep files, accessStep user]
  let progressR := ensureProgressWrapper env.progressBatch
  let steps3 := if progressR.errors.isEmpty then steps2 ++ [progressStep progressR] else steps2
  let typesR := ensureIssueTypesWrapper env.issueTypesBatch
  if typesR.success then steps3 ++ [issueTypesStep typesR] else steps3

/-- The single `Result` pushed at the end of the non-aborting path of
`InitialSetupUseCase.invoke`: success iff no accumulated errors, and the
`errors` field is omitted (none) exactly when the error list is empty. -/
def setupFinalResult (env : SetupEnv) (files : CopyFilesResult) (user : String) : Result :=
  { id := setupTaskId, success := (setupStageErrors env).isEmpty, executed := true,
    steps := setupStageSteps env files user,
    errors := if (setupStageErrors env).isEmpty then none else some (setupStageErrors env) }

/-- Embedding of InitialSetupUseCase.invoke: files are copied first (a throw is
handled by the top-level catch), then the token gate and GitHub-access gate
both return immediately on failure; the three ensure stages accumulate errors
and never abort.  The second component is the trace of stages invoked. -/
def initialSetupInvoke (env : SetupEnv) : List Result × List String :=
  match env.dirsAndCopy with
  | .thrown e =>
      ([{ id := setupTaskId, success := false, executed := true, steps := [],
          errors := some [setupCatchMsg e] }], ["copySetupFiles"])
  | .ok files =>
    if env.hasValidToken = false then
      ([{ id := setupTaskId, success := false, executed := true,
          steps := [setupFilesStep files],
          errors := some [tokenErrorMsg] }], ["copySetupFiles", "hasValidSetupToken"])
    else
      match env.githubAccess with
      | .thrown e =>
          ([{ id := setupTaskId, success := false, executed := true,
              steps := [setupFilesStep files],
              errors := some [accessErrorMsg e] }],
            ["copySetupFiles", "hasValidSetupToken", "verifyGitHubAccess"])
      | .ok user =>
        ([setupFinalResult env files user],
          ["copySetupFiles", "hasValidSetupToken", "verifyGitHubAccess",
            "ensureLabels", "ensureProgressLabels", "ensureIssueTypes"])

/-- Environment where every collaborator call succeeds. -/
def allOkEnv : SetupEnv :=
  { dirsAndCopy := .ok ⟨2, 0⟩, hasValidToken := true, githubAccess := .ok "test-user",
    labelsBatch := .ok ⟨0, 5, []⟩, progressBatch := .ok ⟨0, 21, []⟩,
    issueTypesBatch := .ok ⟨0, 3, []⟩ }

/-- The single `Result` produced by `initialSetupInvoke allOkEnv`. -/
def allOkResult : Result :=
  { id := setupTaskId, success := true, executed := true,
    steps := [setupFilesStep ⟨2, 0⟩, accessStep "test-user", labelsStep ⟨true, 0, 5, []⟩,
      progressStep ⟨0, 21, []⟩, issueTypesStep ⟨true, 0, 3, []⟩],
    errors := none }

/-- Environment where the token gate fails. -/
def tokenFailEnv : SetupEnv :=
  { allOkEnv with hasValidToken := false }

/-- Environment where GitHub-access verification throws. -/
def accessFailEnv : SetupEnv :=
  { allOkEnv with githubAccess := .thrown "Error: Invalid token" }

/-- Whitespace test backing the JS `String.prototype.trim` emptiness check. -/
def isJsWS (c : Char) : Bool := c == ' ' || c == '\t' || c == '\n' || c == '\r'

/-- True when a label name is empty or whitespace-only (the trim-empty check). -/
def blankName (s : String) : Bool := s.data.all isJsWS

/-- Outcome of one call to the create-label / create-issue-type endpoint. -/
inductive CreateOutcome where
  | ok
  | alreadyExists422
  | err (msg : String)
deriving DecidableEq, Repr

/-- The `{created, existed}` pair returned by `ensureLabel`/`ensureIssueType`. -/
structure EnsureOutcome where
  created : Bool
  existed : Bool
deriving DecidableEq, Repr

/-- Modelled from the spec: `IssueRepository.ensureLabel` (and
`ensureIssueType`), whose implementation is not among the sources — only its
unit tests are.  Per the spec's contract: an empty or whitespace-only name is
a no-op `{created:false, existed:false}`; a case-insensitive match in the live
label list reports `{created:false, existed:true}` without calling the create
endpoint; otherwise creation is attempted — plain success reports
`{created:true, existed:false}`, a create-time HTTP 422 "already exists"
reports `{created:false, existed:true}` and is not an error, and any other
throw propagates.  The second component records whether the create endpoint
was called. -/
def ensureLabel (live : List String) (name : String) (create : CreateOutcome) :
    Call EnsureOutcome × Bool :=
  if blankName name then (.ok ⟨false, false⟩, false)
  else if live.any (fun l => lowerStr l == lowerStr name) then (.ok ⟨false, true⟩, false)
  else
    match create with
    | .ok => (.ok ⟨true, false⟩, true)
    | .alreadyExists422 => (.ok ⟨false, true⟩, true)
    | .err m => (.thrown m, true)

/-- The progress-label pattern `^\d+%$`: one or more digits followed by `%`. -/
def isProgressLabel (s : String) : Bool :=
  match s.data.reverse with
  | '%' :: rest => !rest.isEmpty && rest.all Char.isDigit
  | _ => false

/-- Modelled from the spec: `IssueRepository.setProgressLabel`, whose
implementation is not among the sources — only its unit tests are.  Fetches
the issue's current labels, strips every label matching `^\d+%$`, appends the
new percentage label, and overwrites the full label set in one `setLabels`
write; the returned list is that single write's payload. -/
def setProgressLabel (current : List String) (pct : Nat) : List String :=
  current.filter (fun l => !isProgressLabel l) ++ [toString pct ++ "%"]

/-- Modelled from the spec: the batch variants `IssueRepository.ensureLabels` /
`ensureIssueTypes`, whose implementations are not among the sources — only
their unit tests are.  The argument is the per-entry ensure outcome, in order;
entries are processed sequentially, each ok outcome bumps the
`created`/`existing` counters, and an entry whose creation throws appends the
message to `errors` while processing continues with the remaining entries. -/
def ensureBatch : List (Call EnsureOutcome) → BatchOutcome
  | [] => ⟨0, 0, []⟩
  | r :: rs =>
    let rest := ensureBatch rs
    match r with
    | .ok o => ⟨(if o.created then 1 else 0) + rest.created,
        (if o.existed then 1 else 0) + rest.existing, rest.errors⟩
    | .thrown m => ⟨rest.created, rest.existing, m :: rest.errors⟩

/-- Number of batch entries that reported `created`. -/
def okCreatedCount (items : List (Call EnsureOutcome)) : Nat :=
  items.countP fun r => match r with | .ok o => o.created | .thrown _ => false

/-- Number of batch entries that reported `existed`. -/
def okExistedCount (items : List (Call EnsureOutcome)) : Nat :=
  items.countP fun r => match r with | .ok o => o.existed | .thrown _ => false

end Copilot

namespace Copilot

/-- C7: `publicUrl` returns the stored url verbatim when it starts with
`https://`; otherwise it synthesizes the orgs/users URL from type, owner and
number; checked on the two concrete projects named by the spec. -/
theorem projectDetail_publicUrl_spec :
    (∀ p : ProjectDetail, (strStarts p.url "https://" = true → p.publicUrl = p.url) ∧
      (strStarts p.url "https://" = false →
        p.publicUrl =
          (if p.type = "organization" then "https://github.com/orgs/"
           else "https://github.com/users/") ++ p.owner ++ "/projects/" ++ toString p.number)) ∧
    (ProjectDetail.publicUrl ⟨"", "", "organization", "acme", "", 1⟩ =
      "https://github.com/orgs/acme/projects/1") ∧
    (ProjectDetail.publicUrl ⟨"", "", "user", "jane", "", 3⟩ =
      "https://github.com/users/jane/projects/3") := by
  refine ⟨fun p => ⟨fun h => ?_, fun h => ?_⟩, by decide, by decide⟩
  · have hne : p.url ≠ "" := by
      intro he
      rw [he] at h
      exact absurd h (by decide)
    simp [ProjectDetail.publicUrl, hne, h]
  · simp [ProjectDetail.publicUrl, h]

/-- Witness for `projectDetail_publicUrl_spec` at a project with a stored
https URL and at one without. -/
theorem projectDetail_publicUrl_spec_witness :
    ProjectDetail.publicUrl ⟨"", "t", "user", "x", "https://github.com/orgs/x/projects/9", 7⟩ =
      "https://github.com/orgs/x/projects/9" ∧
    ProjectDetail.publicUrl ⟨"", "t", "organization", "acme", "", 5⟩ =
      "https://github.com/orgs/acme/projects/5" := by
  constructor
  · exact (projectDetail_publicUrl_spec.1
      ⟨"", "t", "user", "x", "https://github.com/orgs/x/projects/9", 7⟩).1 (by decide)
  · have h := (projectDetail_publicUrl_spec.1 ⟨"", "t", "organization", "acme", "", 5⟩).2 (by decide)
    simpa using h

end Copilot

namespace Copilot

/-- Helper: any of the three short-circuit conditions yields the single no-op
`Result` and an empty call trace. -/
theorem prioritySize_noop_of_guard (taskId : String) (param : PriorityExecution)
    (setPriority : ProjectDetail → CallOutcome)
    (h : param.labels.priorityLabelOnIssueProcessable = false ∨ param.projects = [] ∨
      priorityTier param.labels = none) :
    checkPrioritySizeInvoke taskId param setPriority = ([noopResult taskId], []) := by
  unfold checkPrioritySizeInvoke
  rcases h with h | h | h
  · simp [h]
  · simp [h]
  · by_cases hc : param.labels.priorityLabelOnIssueProcessable = false ∨ param.projects = []
    · simp [hc]
    · simp [hc, h]

/-- C4: with priority labeling disabled, or no linked projects, or a current
label matching none of the configured tier names, `invoke` returns exactly one
`Result` with `success:true, executed:false` and never calls the priority-set
endpoint (empty call trace). -/
theorem checkPrioritySize_shortCircuit (taskId : String) (param : PriorityExecution)
    (setPriority : ProjectDetail → CallOutcome)
    (h : param.labels.priorityLabelOnIssueProcessable = false ∨ param.projects = [] ∨
      priorityTier param.labels = none) :
    checkPrioritySizeInvoke taskId param setPriority = ([noopResult taskId], []) ∧
    (noopResult taskId).success = true ∧ (noopResult taskId).executed = false :=
  ⟨prioritySize_noop_of_guard taskId param setPriority h, rfl, rfl⟩

/-- Witness for `checkPrioritySize_shortCircuit`: disabled priority labeling
on a two-board execution. -/
theorem checkPrioritySize_shortCircuit_witness :
    checkPrioritySizeInvoke "CheckPriorityIssueSizeUseCase"
        ⟨"o", "r", 1, ⟨"P0", false, "P0", "P1", "P2"⟩, [boardA, boardB]⟩ throwOnB =
      ([noopResult "CheckPriorityIssueSizeUseCase"], []) ∧
    (noopResult "CheckPriorityIssueSizeUseCase").success = true ∧
    (noopResult "CheckPriorityIssueSizeUseCase").executed = false :=
  checkPrioritySize_shortCircuit "CheckPriorityIssueSizeUseCase"
    ⟨"o", "r", 1, ⟨"P0", false, "P0", "P1", "P2"⟩, [boardA, boardB]⟩ throwOnB (Or.inl rfl)

/-- C10: the tier comparison is exact and case-sensitive; a current label that
case-insensitively matches the configured high name but differs from all three
configured names in exact comparison is outside the configured set, so `invoke`
returns the no-op `Result` and never calls the priority-set endpoint. -/
theorem checkPrioritySize_caseSensitive (taskId : String) (param : PriorityExecution)
    (setPriority : ProjectDetail → CallOutcome)
    (_hcase : lowerStr param.labels.priorityLabelOnIssue = lowerStr param.labels.priorityHigh)
    (hhigh : param.labels.priorityLabelOnIssue ≠ param.labels.priorityHigh)
    (hmed : param.labels.priorityLabelOnIssue ≠ param.labels.priorityMedium)
    (hlow : param.labels.priorityLabelOnIssue ≠ param.labels.priorityLow) :
    checkPrioritySizeInvoke taskId param setPriority = ([noopResult taskId], []) ∧
    (noopResult taskId).executed = false := by
  have htier : priorityTier param.labels = none := by
    unfold priorityTier
    simp [hhigh, hmed, hlow]
  exact ⟨prioritySize_noop_of_guard taskId param setPriority (Or.inr (Or.inr htier)), rfl⟩

/-- Witness for `checkPrioritySize_caseSensitive`: current label `p0` against
configured names `P0`/`P1`/`P2` is a no-op even though it matches `P0` up to
case. -/
theorem checkPrioritySize_caseSensitive_witness :
    checkPrioritySizeInvoke "CheckPriorityPullRequestSizeUseCase"
        ⟨"o", "r", 2, ⟨"p0", true, "P0", "P1", "P2"⟩, [boardA]⟩ throwOnB =
      ([noopResult "CheckPriorityPullRequestSizeUseCase"], []) ∧
    (noopResult "CheckPriorityPullRequestSizeUseCase").executed = false :=
  checkPrioritySize_caseSensitive "CheckPriorityPullRequestSizeUseCase"
    ⟨"o", "r", 2, ⟨"p0", true, "P0", "P1", "P2"⟩, [boardA]⟩ throwOnB
    (by decide) (by decide) (by decide) (by decide)

/-- Helper: splitting the project list at the first throwing call, the loop
keeps one success `Result` per earlier project whose call returned true and
then appends the single failure `Result`; later projects are not processed. -/
theorem prioritySizeLoop_err_split (taskId pl e : String)
    (setPriority : ProjectDetail → CallOutcome)
    (pre post : List ProjectDetail) (p : ProjectDetail)
    (hpre : ∀ q ∈ pre, ∃ b, setPriority q = .ok b)
    (hp : setPriority p = .err e) :
    (prioritySizeLoop taskId pl setPriority (pre ++ p :: post)).1 =
      pre.filterMap (fun q => if setPriority q = .ok true
        then some (prioritySuccessResult taskId pl q) else none)
        ++ [priorityFailResult taskId e] := by
  induction pre with
  | nil => simp [prioritySizeLoop, hp]
  | cons q pre ih =>
    obtain ⟨b, hb⟩ := hpre q (List.mem_cons_self q pre)
    have ih' := ih fun r hr => hpre r (List.mem_cons_of_mem q hr)
    cases b with
    | true => simp [prioritySizeLoop, hb, ih']
    | false => simp [prioritySizeLoop, hb, ih']

/-- C2 counterexample: with two linked boards where the first priority-set
call succeeds and the second throws, `invoke` returns TWO `Result`s — the
partial success entry is kept in front of the failure entry — refuting
"returns exactly one Result" for every throwing execution. -/
theorem checkPrioritySize_throw_counterexample :
    throwOnB boardB = .err "Error: API error" ∧
    (checkPrioritySizeInvoke "CheckPriorityPullRequestSizeUseCase" twoBoardParam
        throwOnB).1 =
      [prioritySuccessResult "CheckPriorityPullRequestSizeUseCase" "P0" boardA,
        priorityFailResult "CheckPriorityPullRequestSizeUseCase" "Error: API error"] ∧
    (checkPrioritySizeInvoke "CheckPriorityPullRequestSizeUseCase" twoBoardParam
        throwOnB).1.length = 2 :=
  ⟨rfl, rfl, rfl⟩

/-- C2 amended: when a priority-set call throws, the loop stops and exactly one
failure `Result` (`success:false, executed:true`, step containing "problem") is
appended after the success entries of the projects that returned true before
the throw; when the throw happens on the first project the returned list is
exactly that single failure `Result`. -/
theorem checkPrioritySize_throw_amended (taskId e : String) (param : PriorityExecution)
    (setPriority : ProjectDetail → CallOutcome) (pl : String)
    (hproc : param.labels.priorityLabelOnIssueProcessable = true)
    (htier : priorityTier param.labels = some pl)
    (pre post : List ProjectDetail) (p : ProjectDetail)
    (hsplit : param.projects = pre ++ p :: post)
    (hpre : ∀ q ∈ pre, ∃ b, setPriority q = .ok b)
    (hp : setPriority p = .err e) :
    (checkPrioritySizeInvoke taskId param setPriority).1 =
      pre.filterMap (fun q => if setPriority q = .ok true
        then some (prioritySuccessResult taskId pl q) else none)
        ++ [priorityFailResult taskId e] ∧
    (priorityFailResult taskId e).success = false ∧
    (priorityFailResult taskId e).executed = true ∧
    (priorityFailResult taskId e).steps =
      ["Tried to check the priority of the issue, but there was a problem."] ∧
    (pre = [] → (checkPrioritySizeInvoke taskId param setPriority).1 =
      [priorityFailResult taskId e]) := by
  have hne : param.projects ≠ [] := by simp [hsplit]
  have hmain : (checkPrioritySizeInvoke taskId param setPriority).1 =
      pre.filterMap (fun q => if setPriority q = .ok true
        then some (prioritySuccessResult taskId pl q) else none)
        ++ [priorityFailResult taskId e] := by
    unfold checkPrioritySizeInvoke
    rw [hsplit] at hne ⊢
    rw [if_neg (by simp [hproc, hne])]
    rw [htier]
    exact prioritySizeLoop_err_split taskId pl e setPriority pre post p hpre hp
  refine ⟨hmain, rfl, rfl, rfl, fun hnil => ?_⟩
  rw [hmain, hnil]
  simp

/-- Witness for `checkPrioritySize_throw_amended`: the throw on the single
linked board yields exactly the one failure `Result`. -/
theorem checkPrioritySize_throw_amended_witness :
    (checkPrioritySizeInvoke "CheckPriorityIssueSizeUseCase"
        ⟨"o", "r", 1, ⟨"P0", true, "P0", "P1", "P2"⟩, [boardB]⟩ throwOnB).1 =
      [priorityFailResult "CheckPriorityIssueSizeUseCase" "Error: API error"] :=
  (checkPrioritySize_throw_amended "CheckPriorityIssueSizeUseCase" "Error: API error"
    ⟨"o", "r", 1, ⟨"P0", true, "P0", "P1", "P2"⟩, [boardB]⟩ throwOnB "P0" rfl rfl
    [] [] boardB rfl (fun q hq => absurd hq (List.not_mem_nil q))
    (by decide)).2.2.2.2 rfl

/-- Helper: when no move call throws, the loop emits exactly the success
`Result`s of the boards whose call returned true, in order. -/
theorem moveIssueLoop_no_throw (columnName : String) (move : ProjectDetail → CallOutcome)
    (ps : List ProjectDetail) (h : ∀ p ∈ ps, ∃ b, move p = .ok b) :
    (moveIssueLoop columnName move ps).1 =
      ps.filterMap (fun p => if move p = .ok true
        then some (moveSuccessResult columnName p) else none) := by
  induction ps with
  | nil => simp [moveIssueLoop]
  | cons q qs ih =>
    obtain ⟨b, hb⟩ := h q (List.mem_cons_self q qs)
    have ih' := ih fun r hr => h r (List.mem_cons_of_mem q hr)
    cases b with
    | true => simp [moveIssueLoop, hb, ih']
    | false => simp [moveIssueLoop, hb, ih']

/-- C8: in `MoveIssueToInProgressUseCase.invoke`, each board whose move call
returns true contributes exactly one `Result` with `success:true,
executed:true` and a step built from that board's title and public URL; a
board whose call returns false contributes nothing, so the output can be
shorter than the list of linked projects. -/
theorem moveIssue_per_board (param : MoveExecution) (move : ProjectDetail → CallOutcome)
    (h : ∀ p ∈ param.projects, ∃ b, move p = .ok b) :
    (moveIssueInvoke param move).1 =
      param.projects.filterMap (fun p => if move p = .ok true
        then some (moveSuccessResult param.columnName p) else none) ∧
    (moveIssueInvoke param move).1.length ≤ param.projects.length ∧
    ∀ p : ProjectDetail, moveSuccessResult param.columnName p =
      { id := moveTaskId, success := true, executed := true,
        steps := ["Moved issue to `" ++ param.columnName ++ "` in [" ++ p.title ++ "]("
          ++ p.publicUrl ++ ")."],
        errors := none } := by
  have hmain := moveIssueLoop_no_throw param.columnName move param.projects h
  refine ⟨hmain, ?_, fun p => rfl⟩
  unfold moveIssueInvoke
  rw [hmain]
  exact List.length_filterMap_le _ _

/-- Witness for `moveIssue_per_board`: two linked boards, the move returns
true on the first and false on the second, one `Result` comes back. -/
theorem moveIssue_per_board_witness :
    (moveIssueInvoke ⟨"o", "r", 42, "In Progress", [boardA, boardB]⟩ moveTrueOnA).1 =
      [moveSuccessResult "In Progress" boardA] ∧
    (moveIssueInvoke ⟨"o", "r", 42, "In Progress", [boardA, boardB]⟩ moveTrueOnA).1.length ≤ 2 := by
  have h := moveIssue_per_board ⟨"o", "r", 42, "In Progress", [boardA, boardB]⟩ moveTrueOnA
    (by
      intro p hp
      simp only [List.mem_cons, List.not_mem_nil, or_false] at hp
      rcases hp with rfl | rfl
      · exact ⟨true, rfl⟩
      · exact ⟨false, rfl⟩)
  refine ⟨?_, by simpa using h.2.1⟩
  rw [h.1]
  rfl

/-- Helper: the labels wrapper's `success` flag is exactly "no errors". -/
theorem ensureLabelsWrapper_success_eq (c : Call BatchOutcome) :
    (ensureLabelsWrapper c).success = (ensureLabelsWrapper c).errors.isEmpty := by
  cases c <;> rfl

/-- Helper: the issue-types wrapper's `success` flag is exactly "no errors". -/
theorem ensureIssueTypesWrapper_success_eq (c : Call BatchOutcome) :
    (ensureIssueTypesWrapper c).success = (ensureIssueTypesWrapper c).errors.isEmpty := by
  cases c <;> rfl

/-- Helper: a failed labels stage has each of its error messages recorded in
the accumulated error list. -/
theorem setupStageErrors_mem_labels (env : SetupEnv) (m : String)
    (hfail : (ensureLabelsWrapper env.labelsBatch).success = false)
    (hm : m ∈ (ensureLabelsWrapper env.labelsBatch).errors) :
    m ∈ setupStageErrors env := by
  unfold setupStageErrors
  by_cases hp : (ensureProgressWrapper env.progressBatch).errors.isEmpty <;>
    by_cases ht : (ensureIssueTypesWrapper env.issueTypesBatch).success <;>
      simp [hfail, hp, ht, hm]

/-- Helper: a failed progress-labels stage has each of its error messages
recorded in the accumulated error list. -/
theorem setupStageErrors_mem_progress (env : SetupEnv) (m : String)
    (hfail : (ensureProgressWrapper env.progressBatch).errors.isEmpty = false)
    (hm : m ∈ (ensureProgressWrapper env.progressBatch).errors) :
    m ∈ setupStageErrors env := by
  unfold setupStageErrors
  by_cases hl : (ensureLabelsWrapper env.labelsBatch).success <;>
    by_cases ht : (ensureIssueTypesWrapper env.issueTypesBatch).success <;>
      simp [hfail, hl, ht, hm]

/-- Helper: a failed issue-types stage has each of its error messages recorded
in the accumulated error list. -/
theorem setupStageErrors_mem_types (env : SetupEnv) (m : String)
    (hfail : (ensureIssueTypesWrapper env.issueTypesBatch).success = false)
    (hm : m ∈ (ensureIssueTypesWrapper env.issueTypesBatch).errors) :
    m ∈ setupStageErrors env := by
  unfold setupStageErrors
  by_cases hl : (ensureLabelsWrapper env.labelsBatch).success <;>
    by_cases hp : (ensureProgressWrapper env.progressBatch).errors.isEmpty <;>
      simp [hfail, hl, hp, hm]

/-- C3 counterexample: an environment where the token gate PASSES but the
GitHub-access verification throws; `invoke` aborts with a single failure
`Result` and the ensure stages never run — so the token-validity gate is not
the only stage whose failure aborts the sequence. -/
theorem initialSetup_accessGate_counterexample :
    accessFailEnv.hasValidToken = true ∧
    (initialSetupInvoke accessFailEnv).1 =
      [{ id := setupTaskId, success := false, executed := true,
         steps := [setupFilesStep ⟨2, 0⟩],
         errors := some [accessErrorMsg "Error: Invalid token"] }] ∧
    (initialSetupInvoke accessFailEnv).2 =
      ["copySetupFiles", "hasValidSetupToken", "verifyGitHubAccess"] ∧
    "ensureLabels" ∉ (initialSetupInvoke accessFailEnv).2 :=
  ⟨rfl, rfl, rfl, by decide⟩

/-- C3 amended: labels/progress-labels/issue-types stage failures are recorded
as accumulated errors and do not prevent the later stages from running (the
full stage trace is reached and one `Result` comes back); the token-validity
gate AND the GitHub-access verification each abort immediately with a single
failure `Result`, and a throw while copying setup files aborts through the
top-level catch. -/
theorem initialSetup_stage_isolation (env : SetupEnv) (f : CopyFilesResult) (u e : String) :
    (env.dirsAndCopy = .ok f → env.hasValidToken = true → env.githubAccess = .ok u →
      (initialSetupInvoke env).1 = [setupFinalResult env f u] ∧
      (initialSetupInvoke env).2 = ["copySetupFiles", "hasValidSetupToken",
        "verifyGitHubAccess", "ensureLabels", "ensureProgressLabels", "ensureIssueTypes"] ∧
      ((ensureLabelsWrapper env.labelsBatch).success = false →
        ∀ m ∈ (ensureLabelsWrapper env.labelsBatch).errors, m ∈ setupStageErrors env) ∧
      ((ensureProgressWrapper env.progressBatch).errors.isEmpty = false →
        ∀ m ∈ (ensureProgressWrapper env.progressBatch).errors, m ∈ setupStageErrors env) ∧
      ((ensureIssueTypesWrapper env.issueTypesBatch).success = false →
        ∀ m ∈ (ensureIssueTypesWrapper env.issueTypesBatch).errors,
          m ∈ setupStageErrors env)) ∧
    (env.dirsAndCopy = .ok f → env.hasValidToken = false →
      initialSetupInvoke env =
        ([{ id := setupTaskId, success := false, executed := true,
            steps := [setupFilesStep f], errors := some [tokenErrorMsg] }],
          ["copySetupFiles", "hasValidSetupToken"])) ∧
    (env.dirsAndCopy = .ok f → env.hasValidToken = true → env.githubAccess = .thrown e →
      initialSetupInvoke env =
        ([{ id := setupTaskId, success := false, executed := true,
            steps := [setupFilesStep f], errors := some [accessErrorMsg e] }],
          ["copySetupFiles", "hasValidSetupToken", "verifyGitHubAccess"])) ∧
    (env.dirsAndCopy = .thrown e →
      initialSetupInvoke env =
        ([{ id := setupTaskId, success := false, executed := true, steps := [],
            errors := some [setupCatchMsg e] }], ["copySetupFiles"])) := by
  refine ⟨fun hd ht hg => ?_, fun hd ht => ?_, fun hd ht hg => ?_, fun hd => ?_⟩
  · have hinv : initialSetupInvoke env = ([setupFinalResult env f u],
        ["copySetupFiles", "hasValidSetupToken", "verifyGitHubAccess",
          "ensureLabels", "ensureProgressLabels", "ensureIssueTypes"]) := by
      unfold initialSetupInvoke
      rw [hd]
      simp [ht, hg]
    exact ⟨by rw [hinv], by rw [hinv],
      fun hf m hm => setupStageErrors_mem_labels env m hf hm,
      fun hf m hm => setupStageErrors_mem_progress env m hf hm,
      fun hf m hm => setupStageErrors_mem_types env m hf hm⟩
  · unfold initialSetupInvoke
    rw [hd]
    simp [ht]
  · unfold initialSetupInvoke
    rw [hd]
    simp [ht, hg]
  · unfold initialSetupInvoke
    rw [hd]

/-- Witness for `initialSetup_stage_isolation`: the all-ok environment runs
every stage; the token-failure environment stops before access verification. -/
theorem initialSetup_stage_isolation_witness :
    (initialSetupInvoke allOkEnv).1 = [setupFinalResult allOkEnv ⟨2, 0⟩ "test-user"] ∧
    (initialSetupInvoke tokenFailEnv).1.length = 1 ∧
    "verifyGitHubAccess" ∉ (initialSetupInvoke tokenFailEnv).2 := by
  have h1 := (initialSetup_stage_isolation allOkEnv ⟨2, 0⟩ "test-user" "e").1 rfl rfl rfl
  have h2 := (initialSetup_stage_isolation tokenFailEnv ⟨2, 0⟩ "u" "e").2.1 rfl rfl
  refine ⟨h1.1, ?_, ?_⟩
  · rw [h2]
    rfl
  · rw [h2]
    decide

/-- C9: every `Result` returned by `InitialSetupUseCase.invoke` has
`success = true` exactly when its error list is empty; a successful `Result`
omits the `errors` field entirely (`none`) and a failing one carries a
nonempty list — on the catch path, the token-gate path, the access-failure
path and the normal completion path alike. -/
theorem initialSetup_success_iff_noErrors (env : SetupEnv) (r : Result)
    (hr : r ∈ (initialSetupInvoke env).1) :
    (r.success = true → r.errors = none) ∧
    (r.success = false → ∃ es, r.errors = some es ∧ es ≠ []) := by
  obtain ⟨dc, tok, ga, lb, pb, tb⟩ := env
  cases dc with
  | thrown e =>
    simp only [initialSetupInvoke, List.mem_singleton] at hr
    subst hr
    exact ⟨fun h => by simp at h, fun _ => ⟨_, rfl, by simp⟩⟩
  | ok f =>
    cases tok with
    | false =>
      simp only [initialSetupInvoke, List.mem_singleton, if_pos] at hr
      subst hr
      exact ⟨fun h => by simp at h, fun _ => ⟨_, rfl, by simp⟩⟩
    | true =>
      cases ga with
      | thrown e =>
        simp only [initialSetupInvoke, List.mem_singleton] at hr
        simp at hr
        subst hr
        exact ⟨fun h => by simp at h, fun _ => ⟨_, rfl, by simp⟩⟩
      | ok u =>
        simp only [initialSetupInvoke, List.mem_singleton] at hr
        simp at hr
        subst hr
        by_cases hE : (setupStageErrors ⟨.ok f, true, .ok u, lb, pb, tb⟩).isEmpty
        · refine ⟨fun _ => by simp [setupFinalResult, hE], fun hfalse => ?_⟩
          rw [setupFinalResult] at hfalse
          simp [hE] at hfalse
        · have hne : setupStageErrors ⟨.ok f, true, .ok u, lb, pb, tb⟩ ≠ [] := by
            intro h0
            rw [h0] at hE
            simp at hE
          refine ⟨fun htrue => ?_, fun _ => ⟨_, by simp [setupFinalResult, hE], hne⟩⟩
          rw [setupFinalResult] at htrue
          simp [hE] at htrue

/-- Witness for `initialSetup_success_iff_noErrors` at the all-ok
environment's single successful `Result`. -/
theorem initialSetup_success_iff_noErrors_witness :
    allOkResult.errors = none ∧ allOkResult.success = true :=
  ⟨(initialSetup_success_iff_noErrors allOkEnv allOkResult (by decide)).1 rfl, rfl⟩

/-- C1: `ensureLabel` returns `{created:false, existed:false}` without
calling the create endpoint for a blank name; `{created:false, existed:true}`
without calling the create endpoint on a case-insensitive live match;
`{created:true, existed:false}` on plain creation; and `{created:false,
existed:true}` (no error) on a create-time HTTP 422 "already exists". -/
theorem ensureLabel_contract (live : List String) (name : String) (create : CreateOutcome) :
    (blankName name = true →
      ensureLabel live name create = (.ok ⟨false, false⟩, false)) ∧
    (blankName name = false →
      live.any (fun l => lowerStr l == lowerStr name) = true →
      ensureLabel live name create = (.ok ⟨false, true⟩, false)) ∧
    (blankName name = false →
      live.any (fun l => lowerStr l == lowerStr name) = false →
      create = .ok → ensureLabel live name create = (.ok ⟨true, false⟩, true)) ∧
    (blankName name = false →
      live.any (fun l => lowerStr l == lowerStr name) = false →
      create = .alreadyExists422 →
      ensureLabel live name create = (.ok ⟨false, true⟩, true)) := by
  refine ⟨fun h1 => ?_, fun h1 h2 => ?_, fun h1 h2 h3 => ?_, fun h1 h2 h3 => ?_⟩
  · simp [ensureLabel, h1]
  · simp [ensureLabel, h1, h2]
  · simp [ensureLabel, h1, h2, h3]
  · simp [ensureLabel, h1, h2, h3]

/-- Witness for `ensureLabel_contract`: a whitespace-only name is a no-op,
and `Existing` in the live list matches the request for `existing`. -/
theorem ensureLabel_contract_witness :
    ensureLabel ["Existing"] "  " .ok = (.ok ⟨false, false⟩, false) ∧
    ensureLabel ["Existing"] "existing" (.err "boom") = (.ok ⟨false, true⟩, false) ∧
    ensureLabel ["Existing"] "new-label" .ok = (.ok ⟨true, false⟩, true) ∧
    ensureLabel ["Existing"] "new-label" .alreadyExists422 = (.ok ⟨false, true⟩, true) :=
  ⟨(ensureLabel_contract ["Existing"] "  " .ok).1 (by decide),
    (ensureLabel_contract ["Existing"] "existing" (.err "boom")).2.1 (by decide) (by decide),
    (ensureLabel_contract ["Existing"] "new-label" .ok).2.2.1 (by decide) (by decide) rfl,
    (ensureLabel_contract ["Existing"] "new-label" .alreadyExists422).2.2.2
      (by decide) (by decide) rfl⟩

/-- C5: `setProgressLabel` keeps every non-percentage label, drops every
`^\d+%$` label, appends the new percentage label (all in one write payload);
on current labels `['50%','feature']` with target 75 the single write is
`['feature','75%']`. -/
theorem setProgressLabel_spec :
    (setProgressLabel ["50%", "feature"] 75 = ["feature", "75%"]) ∧
    (∀ (current : List String) (pct : Nat),
      (toString pct ++ "%") ∈ setProgressLabel current pct ∧
      (∀ l ∈ current, isProgressLabel l = false → l ∈ setProgressLabel current pct) ∧
      (∀ l ∈ current, isProgressLabel l = true →
        l ∉ (setProgressLabel current pct).dropLast) ∧
      (∀ l ∈ setProgressLabel current pct,
        l = toString pct ++ "%" ∨ (l ∈ current ∧ isProgressLabel l = false))) := by
  refine ⟨by decide, fun current pct => ⟨?_, ?_, ?_, ?_⟩⟩
  · simp [setProgressLabel]
  · intro l hl hnp
    simp [setProgressLabel, List.mem_filter, hl, hnp]
  · intro l _ hp
    simp only [setProgressLabel, List.dropLast_concat, List.mem_filter]
    rintro ⟨-, hfilter⟩
    simp [hp] at hfilter
  · intro l hl
    rcases List.mem_append.1 hl with h | h
    · right
      refine ⟨(List.mem_filter.1 h).1, ?_⟩
      have := (List.mem_filter.1 h).2
      simpa using this
    · left
      simpa using h

/-- Witness for `setProgressLabel_spec`: the new percentage label is in the
written set for the spec's concrete example. -/
theorem setProgressLabel_spec_witness :
    (toString 75 ++ "%") ∈ setProgressLabel ["50%", "feature"] 75 :=
  (setProgressLabel_spec.2 ["50%", "feature"] 75).1

/-- Helper: a batch whose entries all succeed reports the created/existed
counts and no errors. -/
theorem ensureBatch_all_ok (items : List (Call EnsureOutcome))
    (h : ∀ r ∈ items, ∃ o, r = .ok o) :
    ensureBatch items = ⟨okCreatedCount items, okExistedCount items, []⟩ := by
  induction items with
  | nil => rfl
  | cons r rs ih =>
    obtain ⟨o, ho⟩ := h r (List.mem_cons_self r rs)
    subst ho
    have ih' := ih fun q hq => h q (List.mem_cons_of_mem _ hq)
    obtain ⟨oc, oe⟩ := o
    cases oc <;> cases oe <;>
      simp [ensureBatch, ih', okCreatedCount, okExistedCount, List.countP_cons, Nat.add_comm]

/-- C6: a batch where exactly one entry's creation throws (all others succeed)
reports that single error message — `errors.length ≥ 1` — while the
created/existed counts are exactly those of the non-failing entries, and the
entries after the failing one are still processed. -/
theorem ensureBatch_error_isolation (pre post : List (Call EnsureOutcome)) (m : String)
    (hpre : ∀ r ∈ pre, ∃ o, r = .ok o) (hpost : ∀ r ∈ post, ∃ o, r = .ok o) :
    ensureBatch (pre ++ .thrown m :: post) =
      ⟨okCreatedCount (pre ++ post), okExistedCount (pre ++ post), [m]⟩ ∧
    1 ≤ (ensureBatch (pre ++ .thrown m :: post)).errors.length := by
  have hmain : ensureBatch (pre ++ .thrown m :: post) =
      ⟨okCreatedCount (pre ++ post), okExistedCount (pre ++ post), [m]⟩ := by
    induction pre with
    | nil => simp [ensureBatch, ensureBatch_all_ok post hpost]
    | cons r rs ih =>
      obtain ⟨o, ho⟩ := hpre r (List.mem_cons_self r rs)
      subst ho
      have ih' := ih fun q hq => hpre q (List.mem_cons_of_mem _ hq)
      obtain ⟨oc, oe⟩ := o
      cases oc <;> cases oe <;>
        simp [ensureBatch, ih', okCreatedCount, okExistedCount, List.countP_cons, Nat.add_comm]
  rw [hmain]
  exact ⟨rfl, by simp⟩

/-- Witness for `ensureBatch_error_isolation`: one created entry, one throwing
entry, one existed entry. -/
theorem ensureBatch_error_isolation_witness :
    ensureBatch ([Call.ok ⟨true, false⟩] ++ .thrown "Label exists" :: [.ok ⟨false, true⟩]) =
      ⟨okCreatedCount ([Call.ok ⟨true, false⟩] ++ [.ok ⟨false, true⟩]),
        okExistedCount ([Call.ok ⟨true, false⟩] ++ [.ok ⟨false, true⟩]), ["Label exists"]⟩ ∧
    1 ≤ (ensureBatch ([Call.ok ⟨true, false⟩]
        ++ .thrown "Label exists" :: [.ok ⟨false, true⟩])).errors.length :=
  ensureBatch_error_isolation [Call.ok ⟨true, false⟩] [Call.ok ⟨false, true⟩] "Label exists"
    (by
      intro r hr
      simp only [List.mem_singleton] at hr
      exact ⟨_, hr⟩)
    (by
      intro r hr
      simp only [List.mem_singleton] at hr
      exact ⟨_, hr⟩)

end Copilot
